import Mathlib

/-!
# Verification of the `duo` cache-aside DynamoDB layer

A shallow embedding of `src/duo.py`: the enumerated-type registry
(`EnumMeta`), the typed `Field` descriptors, the per-record snapshot and
optimistic-concurrency machinery of `Item`, and the cache-aside logic of
`Table` (`_get_cache_key`, `_get_cache`, `get_item`, `__getitem__`).

Python dictionaries are modelled as association lists with
insert-or-replace semantics; the backing store (boto) is an external
collaborator and is modelled from the spec's store contract (§6).
-/

namespace Duo

/-- A native DynamoDB attribute value: a string or an integer
(sets are not needed by any claim). -/
inductive DVal where
  | s (v : String)
  | n (v : Int)
deriving DecidableEq, Repr

/-- Raw attribute mapping of an item: attribute name → stored value
(a Python `dict` with string keys, as an association list). -/
abbrev Raw := List (String × DVal)

/-- A Python dict key as it occurs in `Item.get_expected`: either a plain
string (attribute name) or a `(name, value)` tuple, which is what
iterating `self.items()` yields. -/
inductive PyKey where
  | str (s : String)
  | pair (k : String) (v : DVal)
deriving DecidableEq, Repr

/-- A value stored in the `expected` dict built by `Item.get_expected`:
the boolean `False` placeholder or an original attribute value. -/
inductive PyVal where
  | bool (b : Bool)
  | dval (v : DVal)
deriving DecidableEq, Repr

section AssocList

variable {κ : Type} {α : Type} [DecidableEq κ]

/-- `d[k]` lookup on a Python dict modelled as an association list. -/
def alookup : List (κ × α) → κ → Option α
  | [], _ => none
  | (k, v) :: t, q => if k = q then some v else alookup t q

/-- `d[k] = v` on a Python dict: replace the value at an existing key in
place, otherwise append the new binding. -/
def ainsert : List (κ × α) → κ → α → List (κ × α)
  | [], k, v => [(k, v)]
  | (k', v') :: t, k, v =>
      if k' = k then (k, v) :: t else (k', v') :: ainsert t k v

/-- `del d[k]` on a Python dict: drop the binding at `k` (keys of a dict
are unique, so dropping the first occurrence suffices). -/
def aerase : List (κ × α) → κ → List (κ × α)
  | [], _ => []
  | (k', v') :: t, k => if k' = k then t else (k', v') :: aerase t k

/-- `k in d` on a Python dict. -/
def acontains (l : List (κ × α)) (k : κ) : Bool :=
  (alookup l k).isSome

end AssocList

/-! ## EnumMeta: the enumerated-type registry (`duo.py` lines 53-102) -/

/-- The mutable state of an enumeration mount point under `EnumMeta`:
`members` is `cls.members` (declaration order, each member identified by
its class name / `key`), and `byName` records the
`setattr(cls.__class__, cls.__name__, cls)` bindings on the metaclass,
mapping a member name to the index of the member the name resolves to. -/
structure Registry where
  members : List String
  byName : List (String × Nat)
deriving DecidableEq, Repr

/-- A freshly declared mount point (`EnumMeta.__init__` on the mount
point itself): `cls.members = []`. -/
def Registry.empty : Registry := { members := [], byName := [] }

/-- `EnumMeta.__init__` on a subclass of an existing mount point:
`cls.members.append(cls); cls.index = len(cls.members) - 1;
setattr(cls.__class__, cls.__name__, cls); cls.key = cls.__name__`.
The result is wrapped in `Except` so that "registration fails" is
expressible; the source performs no duplicate check and never raises, so
every registration returns `.ok` with the new state and the index
assigned to the member. -/
def Registry.register (r : Registry) (name : String) :
    Except Unit (Registry × Nat) :=
  .ok ({ members := r.members ++ [name],
         byName := ainsert r.byName name r.members.length },
       r.members.length)

/-- Register a list of names in order, collecting the assigned indices
(`.register` never fails, so a failing step contributes no index). -/
def Registry.registerAll (r : Registry) : List String → Registry × List Nat
  | [] => (r, [])
  | name :: rest =>
      match r.register name with
      | .error _ => (r, [])
      | .ok (r', idx) =>
          let (r'', idxs) := r'.registerAll rest
          (r'', idx :: idxs)

/-! ## Table._get_cache_key (`duo.py` lines 447-457) -/

/-- The class-level configuration of a `Table` subclass together with the
`Item`-level cache settings used by `_set_cache`. -/
structure TableS where
  table_name : String
  hash_key_name : String
  range_key_name : Option String
  cachePfx : Option String
  cache_duration : Option Nat
deriving DecidableEq, Repr

/-- `cls.cache_prefix or cls.table_name`: Python `or` falls through on a
falsy value (`None` or the empty string). `cachePfx` models the
`cache_prefix` class attribute. -/
def TableS.prefixOrName (t : TableS) : String :=
  match t.cachePfx with
  | none => t.table_name
  | some p => if p = "" then t.table_name else p

/-- `Table._get_cache_key`: `'%s_%s' % (prefix, hash_key)`, or
`'%s_%s_%s' % (prefix, hash_key, range_key)` when a range key is given. -/
def TableS.getCacheKey (t : TableS) (hash_key : String)
    (range_key : Option String) : String :=
  match range_key with
  | none => t.prefixOrName ++ "_" ++ hash_key
  | some r => t.prefixOrName ++ "_" ++ hash_key ++ "_" ++ r

/-! ## Records (`duo.Item`, lines 250-362) -/

/-- A `duo.Item` instance: the underlying dict contents (`attrs`), the
snapshot taken by `Item.__init__` (`self._original = self.copy()`), the
addressing key, and the `is_new` flag. -/
structure Rec where
  hash_key : String
  range_key : Option String
  attrs : Raw
  original : Raw
  is_new : Bool
deriving DecidableEq, Repr

/-- `Item.get_expected` (lines 308-317): `expected = {}`, then
`for key in self.items(): expected[key] = False` — iterating `items()`
yields `(name, value)` tuples, which become the dict keys — and finally
`expected.update(self._original)`. -/
def Rec.get_expected (obj : Rec) : List (PyKey × PyVal) :=
  let e := obj.attrs.foldl
    (fun acc kv => ainsert acc (PyKey.pair kv.1 kv.2) (PyVal.bool false)) []
  obj.original.foldl
    (fun acc kv => ainsert acc (PyKey.str kv.1) (PyVal.dval kv.2)) e

/-! ## Field descriptors (`duo.Field`, lines 554-611) -/

/-- Errors a `Field` accessor can raise: the two `AttributeError`
policy violations, a conversion failure from `from_python`
(`ValueError`, or `KeyError` for enum lookup), and the `KeyError` from
`del obj[self.name]` on a missing attribute. -/
inductive FieldErr where
  | immutableKey
  | readOnly
  | conversion
  | keyNotFound
deriving DecidableEq, Repr

/-- The per-field declaration state: `self.name` (assigned by the
metaclass) and `self.readonly`. -/
structure FieldD where
  name : String
  readonly : Bool
deriving DecidableEq, Repr

/-- `Field.__set__` (lines 588-601). `conv` stands for the concrete
subclass's `from_python` (which may raise); `value = none` models Python
`None` (clear the attribute), `some v` a value handed to `from_python`.
The key names come from the record's table, as
`getattr(obj, 'hash_key_name')` does. -/
def FieldD.set (f : FieldD) (tbl : TableS) (conv : DVal → Except Unit DVal)
    (obj : Rec) (value : Option DVal) : Except FieldErr Rec :=
  if f.name = tbl.hash_key_name then .error .immutableKey
  else if tbl.range_key_name = some f.name then .error .immutableKey
  else if f.readonly then .error .readOnly
  else
    match value with
    | none =>
        if acontains obj.attrs f.name then
          .ok { obj with attrs := aerase obj.attrs f.name }
        else .ok obj
    | some v =>
        match conv v with
        | .error _ => .error .conversion
        | .ok raw => .ok { obj with attrs := ainsert obj.attrs f.name raw }

/-- `Field.__delete__` (lines 603-611): same policy checks, then
`del obj[self.name]`, which raises `KeyError` when absent. -/
def FieldD.del (f : FieldD) (tbl : TableS) (obj : Rec) : Except FieldErr Rec :=
  if f.name = tbl.hash_key_name then .error .immutableKey
  else if tbl.range_key_name = some f.name then .error .immutableKey
  else if f.readonly then .error .readOnly
  else if acontains obj.attrs f.name then
    .ok { obj with attrs := aerase obj.attrs f.name }
  else .error .keyNotFound

/-! ## Concrete field coercions (lines 614-697) -/

/-- `UnicodeField.to_python`: returns the stored value unchanged. -/
def UnicodeField.to_python (value : String) : String := value

/-- `UnicodeField.from_python`: `text_type(value)`; on a valid domain
value — a unicode string — this returns the same string. -/
def UnicodeField.from_python (value : String) : String := value

/-- `IntegerField.to_python`: returns the stored value unchanged. -/
def IntegerField.to_python (value : Int) : Int := value

/-- `IntegerField.from_python`: `int(value)`; on a valid domain value —
an integer — this is the identity. -/
def IntegerField.from_python (value : Int) : Int := value

/-- A `datetime.date`, modelled by its proleptic-Gregorian ordinal
(`date.toordinal` is a bijection onto the positive integers). -/
abbrev PyDate := { n : Int // 0 < n }

/-- `DateField.to_python` (lines 665-669): `None` or `0` yields `None`;
otherwise `datetime.date.fromordinal(value)`, which raises `ValueError`
for a non-positive ordinal. -/
def DateField.to_python (value : Option Int) : Except Unit (Option PyDate) :=
  match value with
  | none => .ok none
  | some v =>
      if h : 0 < v then .ok (some ⟨v, h⟩)
      else if v = 0 then .ok none
      else .error ()

/-- `DateField.from_python` (lines 671-678): `None` (or the raw `0`,
which is not a `date` and so is excluded from the domain type) maps to
`0`; a date maps to `value.toordinal()`. -/
def DateField.from_python (value : Option PyDate) : Int :=
  match value with
  | none => 0
  | some d => d.val

/-- `DateTimeField.to_python` (lines 684-688): `None` or `0` yields
`None`; otherwise `datetime.datetime.fromtimestamp(value)`. A datetime
is modelled by its epoch-second timestamp (`time.mktime` of a
`timetuple` has second granularity). -/
def DateTimeField.to_python (value : Option Int) : Option Int :=
  match value with
  | none => none
  | some v => if v = 0 then none else some v

/-- `DateTimeField.from_python` (lines 690-697): `None` maps to `0` (a
datetime object never compares equal to `0`, so the `value == 0` branch
only fires for `None`); a datetime maps to
`time.mktime(value.timetuple())`, its epoch timestamp. -/
def DateTimeField.from_python (value : Option Int) : Int :=
  match value with
  | none => 0
  | some v => v

/-- A variant of a registry, identified by its zero-based position:
`cls.members[i]` is the member whose `index` is `i`, and
`Registry.members.get? i` is its `key` (class name). -/
def Registry.memberName (reg : Registry) (i : Nat) : Option String :=
  reg.members.get? i

/-- `_ChoiceMixin.to_python` for `ChoiceField` (lines 644-645):
`self.enum_type[value]` with a stored name string —
`EnumMeta.__getitem__` resolves a string via `getattr(cls, idx)` (the
metaclass attribute written by `setattr` at registration, i.e. the
`byName` binding), raising `KeyError` when the name is unknown. -/
def ChoiceField.to_python (reg : Registry) (raw : String) : Except Unit Nat :=
  match alookup reg.byName raw with
  | some i => .ok i
  | none => .error ()

/-- `ChoiceField.from_python` (lines 651-652):
`text_type(self.enum_type[value])` — for a member `value`,
`EnumMeta.__getitem__` returns `cls.members[int(value)]` and
`text_type` yields that member's `key`, its name. -/
def ChoiceField.from_python (reg : Registry) (x : Nat) : Except Unit String :=
  match reg.members.get? x with
  | some nm => .ok nm
  | none => .error ()

/-- `_ChoiceMixin.to_python` for `EnumField` (lines 644-645):
`self.enum_type[value]` with a stored integer — `EnumMeta.__getitem__`
resolves an `int` via `cls.members[idx]`; the member at position `idx`
has `index = idx`. -/
def EnumField.to_python (reg : Registry) (raw : Nat) : Except Unit Nat :=
  if raw < reg.members.length then .ok raw else .error ()

/-- `EnumField.from_python` (lines 658-659):
`int(self.enum_type[value])` — the looked-up member's `index`. -/
def EnumField.from_python (reg : Registry) (x : Nat) : Except Unit Nat :=
  if x < reg.members.length then .ok x else .error ()

/-! ## The backing store, modelled from the spec (§4.3, §6) -/

/-- Errors visible to the table/record layer: boto's
`DynamoDBKeyNotFoundError`, the conditional-check failure, and an
exception raised by the cache client. -/
inductive DuoErr where
  | notFound
  | preconditionFailed
  | cacheError
deriving DecidableEq, Repr

/-- A store key: `(hash_key, optional range_key)`. -/
abbrev StoreKey := String × Option String

/-- The backing store's contents. -/
abbrev Store := List (StoreKey × Raw)

/-- Modelled from the spec: the precondition check of a conditional
write (§4.3: "an attribute entry of `false` asserts attribute
absent..., an entry with an original value asserts attribute must still
equal this value"). Real attribute names are plain strings (§6), so an
`expected` entry keyed by a `(name, value)` tuple names no storable
attribute: its absence assertion holds vacuously, and an equality
assertion can never hold. -/
def assertionHolds (current : Raw) : PyKey × PyVal → Bool
  | (.str nm, .bool _) => ! acontains current nm
  | (.str nm, .dval d) => alookup current nm == some d
  | (.pair _ _, .bool _) => true
  | (.pair _ _, .dval _) => false

/-- Modelled from the spec: `expected` matches the current state iff
every entry's assertion holds. -/
def expectedMatches (current : Raw) (expected : List (PyKey × PyVal)) : Bool :=
  expected.all (assertionHolds current)

/-- Modelled from the spec: `get_record` — "fails with NotFound if
absent" (§6). -/
def get_record (s : Store) (k : StoreKey) : Except Unit Raw :=
  match alookup s k with
  | none => .error ()
  | some raw => .ok raw

/-- Modelled from the spec: `put_record` — "fails with
PreconditionFailed if `expected` does not match current state" (§6). An
absent record has every attribute absent. -/
def put_record (s : Store) (k : StoreKey) (attrs : Raw)
    (expected : Option (List (PyKey × PyVal))) : Except Unit Store :=
  let current := (alookup s k).getD []
  match expected with
  | some exp =>
      if expectedMatches current exp then .ok (ainsert s k attrs)
      else .error ()
  | none => .ok (ainsert s k attrs)

/-- Modelled from the spec: `delete_record` — returns ack (§6). -/
def delete_record (s : Store) (k : StoreKey) : Store := aerase s k

/-! ## The cache client (pymemcached-compatible, may raise) -/

/-- The cache's contents plus fault switches: `failSet`/`failDel` model
a cache client whose `set`/`delete` raises (connectivity etc.). -/
structure CacheState where
  entries : List (String × Raw)
  failSet : Bool
  failDel : Bool
deriving DecidableEq, Repr

/-- `cache.get(key)`. -/
def CacheState.get (c : CacheState) (k : String) : Option Raw :=
  alookup c.entries k

/-- `cache.set(key, value, duration)`: raises when the fault switch is
on. -/
def CacheState.set (c : CacheState) (k : String) (v : Raw) :
    Except Unit CacheState :=
  if c.failSet then .error ()
  else .ok { c with entries := ainsert c.entries k v }

/-- `cache.delete(key)`: raises when the fault switch is on. -/
def CacheState.del (c : CacheState) (k : String) : Except Unit CacheState :=
  if c.failDel then .error ()
  else .ok { c with entries := aerase c.entries k }

/-- `Item._set_cache` (lines 291-298): only acts when both `self.cache`
and `self.cache_duration` are set; stores `list(self.items())` — the
raw attribute pairs — under the table's cache key. -/
def itemSetCache (tbl : TableS) (cache : Option CacheState) (item : Rec) :
    Except Unit (Option CacheState) :=
  match cache, tbl.cache_duration with
  | some c, some _ =>
      match c.set (tbl.getCacheKey item.hash_key item.range_key) item.attrs with
      | .error _ => .error ()
      | .ok c' => .ok (some c')
  | _, _ => .ok cache

/-- `Item._delete_cache` (lines 300-306): only acts when `self.cache`
is set. -/
def itemDelCache (tbl : TableS) (cache : Option CacheState) (item : Rec) :
    Except Unit (Option CacheState) :=
  match cache with
  | some c =>
      match c.del (tbl.getCacheKey item.hash_key item.range_key) with
      | .error _ => .error ()
      | .ok c' => .ok (some c')
  | none => .ok cache

/-! ## Record persistence operations (`Item.put/save/delete`) -/

/-- The state a record operation acts on: the table configuration, the
backing store, the (optional) cache client, the record itself, and
whether a non-fatal warning was issued. -/
structure OpState where
  tbl : TableS
  store : Store
  cache : Option CacheState
  item : Rec
  warned : Bool
deriving DecidableEq, Repr

/-- The outcome of a record operation: normal return, or a raised
exception; both carry the state as it stands when control leaves the
method. -/
inductive OpResult where
  | ok (st : OpState)
  | err (e : DuoErr) (st : OpState)
deriving DecidableEq, Repr

/-- `Item.put` (lines 319-328): the store write first (raising
propagates with nothing changed), then `self.is_new = False`, then the
cache write-through inside `try/except` — a cache exception only sets a
warning. -/
def Item.put (st : OpState) (expected : Option (List (PyKey × PyVal))) :
    OpResult :=
  match put_record st.store (st.item.hash_key, st.item.range_key)
      st.item.attrs expected with
  | .error _ => .err .preconditionFailed st
  | .ok s' =>
      let st' := { st with store := s',
                           item := { st.item with is_new := false } }
      match itemSetCache st'.tbl st'.cache st'.item with
      | .error _ => .ok { st' with warned := true }
      | .ok c' => .ok { st' with cache := c' }

/-- `Item.save` (lines 336-345): structurally identical to `put` — store
write, `is_new = False`, guarded cache write-through. Boto's
attribute-level merge semantics are backing-store-defined (spec §9) and
are abstracted to the same store write. -/
def Item.save (st : OpState) (expected : Option (List (PyKey × PyVal))) :
    OpResult :=
  match put_record st.store (st.item.hash_key, st.item.range_key)
      st.item.attrs expected with
  | .error _ => .err .preconditionFailed st
  | .ok s' =>
      let st' := { st with store := s',
                           item := { st.item with is_new := false } }
      match itemSetCache st'.tbl st'.cache st'.item with
      | .error _ => .ok { st' with warned := true }
      | .ok c' => .ok { st' with cache := c' }

/-- `Item.put_conditionally` (lines 330-334):
`kwargs['expected_value'] = self.get_expected()` then delegate to
`put`. -/
def Item.put_conditionally (st : OpState) : OpResult :=
  Item.put st (some (Rec.get_expected st.item))

/-- `Item.save_conditionally` (lines 347-351): same, delegating to
`save`. -/
def Item.save_conditionally (st : OpState) : OpResult :=
  Item.save st (some (Rec.get_expected st.item))

/-- `Item.delete` (lines 353-362): store delete, `self.is_new = True`,
then the cache invalidation inside `try/except`. -/
def Item.delete (st : OpState) : OpResult :=
  let st' := { st with
      store := delete_record st.store (st.item.hash_key, st.item.range_key),
      item := { st.item with is_new := true } }
  match itemDelCache st'.tbl st'.cache st'.item with
  | .error _ => .ok { st' with warned := true }
  | .ok c' => .ok { st' with cache := c' }

/-! ## Table lookup operations (`duo.Table`, lines 421-516) -/

/-- The attribute dict of a freshly created boto item
(`table.new_item(hash_key, range_key, attrs={})`): the key attributes
under the table's key-schema names. `Item.__init__` then snapshots it. -/
def mkKeyAttrs (tbl : TableS) (h : String) (r : Option String) : Raw :=
  match r with
  | none => [(tbl.hash_key_name, DVal.s h)]
  | some rv =>
      [(tbl.hash_key_name, DVal.s h), (tbl.range_key_name.getD "", DVal.s rv)]

/-- `Table.create` (lines 421-430): `new_item(...)` then
`self._extend(item, is_new=True)`. -/
def Table.create (tbl : TableS) (h : String) (r : Option String) : Rec :=
  let attrs := mkKeyAttrs tbl h r
  { hash_key := h, range_key := r, attrs := attrs, original := attrs,
    is_new := true }

/-- `Table._get_cache` (lines 459-476): `None` without a cache; on a
cache hit, rebuild an Item from the cached pairs and `_extend` it with
the default `is_new=False`. -/
def Table.getCache (tbl : TableS) (cache : Option CacheState)
    (h : String) (r : Option String) : Option Rec :=
  match cache with
  | none => none
  | some c =>
      match c.get (tbl.getCacheKey h r) with
      | none => none
      | some raw =>
          some { hash_key := h, range_key := r, attrs := raw,
                 original := raw, is_new := false }

/-- The outcome of a single-record fetch: the item and the cache state
on return, or a raised exception. -/
inductive FetchResult where
  | ok (item : Rec) (cache : Option CacheState)
  | err (e : DuoErr) (cache : Option CacheState)
deriving DecidableEq, Repr

/-- `Table.get_item` (lines 478-488): fetch from the store (boto raises
`DynamoDBKeyNotFoundError` when absent), `_extend` the result (default
`is_new=False`), then `item._set_cache()` — with no `try/except`, so a
cache exception propagates out of `get_item`. -/
def Table.get_item (tbl : TableS) (store : Store) (cache : Option CacheState)
    (h : String) (r : Option String) : FetchResult :=
  match get_record store (h, r) with
  | .error _ => .err .notFound cache
  | .ok raw =>
      let item : Rec := { hash_key := h, range_key := r, attrs := raw,
                          original := raw, is_new := false }
      match itemSetCache tbl cache item with
      | .error _ => .err .cacheError cache
      | .ok c' => .ok item c'

/-- The outcome of `Table.__getitem__`: a single record, the lazy query
sequence (the hash-only lookup on a table with a range key), or a raised
exception. -/
inductive LookupResult where
  | item (r : Rec) (cache : Option CacheState)
  | queryResult
  | err (e : DuoErr) (cache : Option CacheState)
deriving DecidableEq, Repr

/-- `Table.__getitem__` (lines 490-516): split the key; consult
`_get_cache` first; on a miss either return `query(hash_key)` (hash-only
key on a range-keyed table) or `get_item` inside a `try/except` that
catches only `DynamoDBKeyNotFoundError` and recovers with
`create(hash_key, range_key)`; finally `if not item.is_new:
item._set_cache()` — again unguarded. -/
def Table.getElem (tbl : TableS) (store : Store) (cache : Option CacheState)
    (key : String ⊕ (String × String)) : LookupResult :=
  let hr : String × Option String :=
    match key with
    | .inl h => (h, none)
    | .inr (h, r) => (h, some r)
  match Table.getCache tbl cache hr.1 hr.2 with
  | some it => .item it cache
  | none =>
      match hr.2, tbl.range_key_name with
      | none, some _ => .queryResult
      | _, _ =>
          let afterTry : FetchResult :=
            match Table.get_item tbl store cache hr.1 hr.2 with
            | .err .notFound c => .ok (Table.create tbl hr.1 hr.2) c
            | other => other
          match afterTry with
          | .err e c => .err e c
          | .ok it c =>
              if it.is_new then .item it c
              else
                match itemSetCache tbl c it with
                | .error _ => .err .cacheError c
                | .ok c' => .item it c'

/-- `ForeignKeyField.from_python` (lines 718-722):
`json.dumps({'table': value.table_name, 'key': value.dynamo_key})`,
where `dynamo_key` is the hash key or the `(hash, range)` tuple; the
JSON payload is modelled by the structured pair it serializes. -/
def ForeignKeyField.from_python (x : Rec) (tname : String) :
    String × StoreKey :=
  (tname, (x.hash_key, x.range_key))

/-- `ForeignKeyField.to_python` (lines 703-716) on a serialized payload
(the non-`Item`, non-passthrough branch): parse `{table, key}`, turn a
list key back into a tuple, resolve the table via `obj.duo_db[table]`
(modelled by the registered `TableS` for that name, with its store and
cache), and return `table[key]` — a `Table.__getitem__` lookup. -/
def ForeignKeyField.to_python (tbl : TableS) (store : Store)
    (cache : Option CacheState) (payload : String × StoreKey) :
    LookupResult :=
  match payload.2.2 with
  | none => Table.getElem tbl store cache (.inl payload.2.1)
  | some rv => Table.getElem tbl store cache (.inr (payload.2.1, rv))

/-- Whether a record operation returned normally. -/
def OpResult.isOk : OpResult → Bool
  | .ok _ => true
  | .err _ _ => false

/-! ## Concrete fixtures used by witnesses and counterexamples -/

/-- A range-keyed table fixture: hash key name `h`, range key name `r`,
no cache prefix override, a cache duration of 60. -/
def tbl0 : TableS :=
  { table_name := "t", hash_key_name := "h", range_key_name := some "r",
    cachePfx := none, cache_duration := some 60 }

/-- A hash-only table fixture. -/
def tblH : TableS :=
  { table_name := "t", hash_key_name := "h", range_key_name := none,
    cachePfx := none, cache_duration := some 60 }

/-- A cache client whose `set` raises. -/
def cacheFail : CacheState := { entries := [], failSet := true, failDel := false }

/-- A record loaded when the store held only its key attribute, after
the caller set attribute `a` locally: live raw state
`{h: "k", a: 1}`, snapshot `{h: "k"}`. -/
def rec2 : Rec :=
  { hash_key := "k", range_key := none,
    attrs := [("h", DVal.s "k"), ("a", DVal.n 1)],
    original := [("h", DVal.s "k")], is_new := false }

/-- A store whose current state at `rec2`'s key has diverged from
`rec2`'s snapshot: some other writer has set `a = 1`. -/
def store4 : Store := [(("k", none), [("h", DVal.s "k"), ("a", DVal.n 1)])]

/-! ## Helper lemmas -/

section AssocLemmas

variable {κ : Type} {α : Type} [DecidableEq κ]

theorem alookup_ainsert_ne (l : List (κ × α)) (k q : κ) (v : α) (h : k ≠ q) :
    alookup (ainsert l k v) q = alookup l q := by
  induction l with
  | nil => simp [ainsert, alookup, h]
  | cons hd t ih =>
      obtain ⟨k', v'⟩ := hd
      by_cases hk : k' = k
      · subst hk
        simp [ainsert, alookup, h]
      · simp only [ainsert, if_neg hk]
        by_cases hq : k' = q
        · simp [alookup, hq]
        · simp [alookup, hq, ih]

theorem alookup_aerase_ne (l : List (κ × α)) (k q : κ) (h : k ≠ q) :
    alookup (aerase l k) q = alookup l q := by
  induction l with
  | nil => simp [aerase]
  | cons hd t ih =>
      obtain ⟨k', v'⟩ := hd
      by_cases hk : k' = k
      · subst hk
        simp [aerase, alookup, h]
      · simp only [aerase, if_neg hk]
        by_cases hq : k' = q
        · simp [alookup, hq]
        · simp [alookup, hq, ih]

theorem alookup_ainsert_self (l : List (κ × α)) (k : κ) (v : α) :
    alookup (ainsert l k v) k = some v := by
  induction l with
  | nil => simp [ainsert, alookup]
  | cons hd t ih =>
      obtain ⟨k', v'⟩ := hd
      by_cases hk : k' = k
      · subst hk; simp [ainsert, alookup]
      · simp [ainsert, hk, alookup, ih]

end AssocLemmas

/-- Splitting at a separator character is unique when neither left part
contains the separator. -/
theorem sep_split_unique (a : List Char) : ∀ (c b d : List Char),
    '_' ∉ a → '_' ∉ c → a ++ '_' :: b = c ++ '_' :: d → a = c ∧ b = d := by
  induction a with
  | nil =>
      intro c b d _ hc h
      cases c with
      | nil => simpa using h
      | cons ch ct =>
          simp only [List.nil_append, List.cons_append, List.cons.injEq] at h
          rw [← h.1] at hc
          simp at hc
  | cons ah at' ih =>
      intro c b d ha hc h
      cases c with
      | nil =>
          simp only [List.nil_append, List.cons_append, List.cons.injEq] at h
          rw [h.1] at ha
          simp at ha
      | cons ch ct =>
          simp only [List.cons_append, List.cons.injEq] at h
          simp only [List.mem_cons, not_or] at ha hc
          have ht := ih ct b d ha.2 hc.2 h.2
          exact ⟨by rw [h.1, ht.1], ht.2⟩

theorem getCacheKey_data_none (t : TableS) (h : String) :
    (t.getCacheKey h none).data = t.prefixOrName.data ++ '_' :: h.data := by
  show (t.prefixOrName ++ "_" ++ h).data = _
  simp [String.data_append]

theorem getCacheKey_data_some (t : TableS) (h r : String) :
    (t.getCacheKey h (some r)).data
      = t.prefixOrName.data ++ '_' :: (h.data ++ '_' :: r.data) := by
  show (t.prefixOrName ++ "_" ++ h ++ "_" ++ r).data = _
  simp [String.data_append]

/-- Members and indices produced by a sequence of registrations. -/
theorem registerAll_spec (names : List String) : ∀ r : Registry,
    (r.registerAll names).1.members = r.members ++ names
    ∧ (r.registerAll names).2
        = (List.range names.length).map (· + r.members.length) := by
  induction names with
  | nil => intro r; simp [Registry.registerAll]
  | cons nm rest ih =>
      intro r
      have step : (Registry.mk (r.members ++ [nm])
          (ainsert r.byName nm r.members.length)).members = r.members ++ [nm] := rfl
      obtain ⟨ih1, ih2⟩ := ih (Registry.mk (r.members ++ [nm])
          (ainsert r.byName nm r.members.length))
      constructor
      · simp only [Registry.registerAll, Registry.register]
        rw [ih1, step]
        simp
      · simp only [Registry.registerAll, Registry.register]
        rw [ih2, step]
        simp only [List.length_cons, List.range_succ_eq_map, List.map_cons,
          Nat.zero_add, List.map_map, List.length_append, List.length_cons,
          List.length_nil]
        congr 1
        apply List.map_congr_left
        intro i _
        simp [Function.comp]
        omega

/-- Registering names that do not include `nm` leaves `nm`'s metaclass
binding untouched. -/
theorem registerAll_byName_notmem (names : List String) :
    ∀ (r : Registry) (nm : String), nm ∉ names →
    alookup (r.registerAll names).1.byName nm = alookup r.byName nm := by
  induction names with
  | nil => intro r nm _; rfl
  | cons n rest ih =>
      intro r nm hmem
      simp only [List.mem_cons, not_or] at hmem
      simp only [Registry.registerAll, Registry.register]
      exact (ih _ nm hmem.2).trans
        (alookup_ainsert_ne r.byName n nm r.members.length (Ne.symm hmem.1))

/-- With pairwise-distinct names — the spec's registry invariant — the
metaclass binding of the `i`-th registered name is the index assigned to
it. -/
theorem registerAll_byName_nodup (names : List String) :
    ∀ r : Registry, names.Nodup →
    ∀ (i : Nat) (nm : String), names.get? i = some nm →
    alookup (r.registerAll names).1.byName nm
      = some (r.members.length + i) := by
  induction names with
  | nil => intro r _ i nm h; simp at h
  | cons n rest ih =>
      intro r hnd i nm hget
      simp only [List.nodup_cons] at hnd
      cases i with
      | zero =>
          simp only [List.get?] at hget
          obtain rfl : n = nm := by injection hget
          simp only [Registry.registerAll, Registry.register]
          rw [registerAll_byName_notmem rest _ n hnd.1]
          simpa using alookup_ainsert_self r.byName n r.members.length
      | succ j =>
          simp only [List.get?] at hget
          simp only [Registry.registerAll, Registry.register]
          have hb := ih (Registry.mk (r.members ++ [n])
            (ainsert r.byName n r.members.length)) hnd.2 j nm hget
          rw [hb]
          simp only [List.length_append, List.length_cons, List.length_nil,
            Option.some.injEq]
          omega

/-- A store hit with no cache: `__getitem__` on a hash-only key returns
the fetched record, extended with `is_new = false`. -/
theorem getElem_hit_nocache_hash (tbl : TableS) (store : Store)
    (h : String) (raw : Raw)
    (hrk : tbl.range_key_name = none)
    (hm : get_record store (h, none) = .ok raw) :
    Table.getElem tbl store none (.inl h)
      = .item (Rec.mk h none raw raw false) none := by
  simp [Table.getElem, Table.getCache, hrk, Table.get_item, hm, itemSetCache]

/-- A store hit with no cache: `__getitem__` on a `(hash, range)` key
returns the fetched record, extended with `is_new = false`. -/
theorem getElem_hit_nocache_pair (tbl : TableS) (store : Store)
    (h rv : String) (raw : Raw)
    (hm : get_record store (h, some rv) = .ok raw) :
    Table.getElem tbl store none (.inr (h, rv))
      = .item (Rec.mk h (some rv) raw raw false) none := by
  simp [Table.getElem, Table.getCache, Table.get_item, hm, itemSetCache]

/-- C5 (amended): the cache key is `prefix_or_tablename + "_" + hash_key`
(plus `"_" + range_key` when present), and for a fixed table the map is
injective on pairs whose hash and range keys contain no underscore; with
an underscore in a key, distinct pairs can collide (see the
counterexample). -/
theorem c5_cache_key_derivation :
    (∀ (t : TableS) (hk : String),
        t.getCacheKey hk none = t.prefixOrName ++ "_" ++ hk)
    ∧ (∀ (t : TableS) (hk rk : String),
        t.getCacheKey hk (some rk) = t.prefixOrName ++ "_" ++ hk ++ "_" ++ rk)
    ∧ (∀ (t : TableS) (h1 h2 : String) (r1 r2 : Option String),
        '_' ∉ h1.data → '_' ∉ h2.data →
        (∀ s, r1 = some s → '_' ∉ s.data) →
        (∀ s, r2 = some s → '_' ∉ s.data) →
        t.getCacheKey h1 r1 = t.getCacheKey h2 r2 →
        h1 = h2 ∧ r1 = r2) := by
  refine ⟨fun t hk => rfl, fun t hk rk => rfl, ?_⟩
  intro t h1 h2 r1 r2 H1 H2 R1 R2 heq
  have hdata := congrArg String.data heq
  cases r1 with
  | none =>
      cases r2 with
      | none =>
          rw [getCacheKey_data_none, getCacheKey_data_none] at hdata
          have hc := List.append_cancel_left hdata
          simp only [List.cons.injEq, true_and] at hc
          exact ⟨String.ext hc, rfl⟩
      | some s2 =>
          rw [getCacheKey_data_none, getCacheKey_data_some] at hdata
          have hc := List.append_cancel_left hdata
          simp only [List.cons.injEq, true_and] at hc
          exact absurd (hc ▸ List.mem_append_right h2.data
            (List.mem_cons_self '_' s2.data)) H1
  | some s1 =>
      cases r2 with
      | none =>
          rw [getCacheKey_data_some, getCacheKey_data_none] at hdata
          have hc := List.append_cancel_left hdata
          simp only [List.cons.injEq, true_and] at hc
          exact absurd (hc ▸ List.mem_append_right h1.data
            (List.mem_cons_self '_' s1.data)) H2
      | some s2 =>
          rw [getCacheKey_data_some, getCacheKey_data_some] at hdata
          have hc := List.append_cancel_left hdata
          simp only [List.cons.injEq, true_and] at hc
          have hu := sep_split_unique h1.data h2.data s1.data s2.data H1 H2 hc
          exact ⟨String.ext hu.1, by rw [String.ext hu.2]⟩

/-- C5 counterexample: with a hash key containing an underscore, the
distinct keys `("a_b", no range)` and `("a", "b")` produce the same
cache key, so the derivation is not injective as claimed. -/
theorem c5_counterexample :
    TableS.getCacheKey tbl0 "a_b" none = TableS.getCacheKey tbl0 "a" (some "b")
    ∧ (("a_b", none) : String × Option String) ≠ ("a", some "b") := by
  constructor
  · rfl
  · decide

/-- C5 witness: the injectivity part applied to underscore-free keys. -/
theorem c5_witness : ("a" : String) = "a" ∧ (none : Option String) = none :=
  c5_cache_key_derivation.2.2 tbl0 "a" "a" none none (by decide) (by decide)
    (fun s hs => nomatch hs) (fun s hs => nomatch hs) rfl

/-- C6 (amended): `register` appends the new member with index equal to
the registry's member count before the registration, so indices follow
declaration order starting at zero, and the metaclass attribute rebinds
the name to the newly assigned index; but registering a name that is
already registered does not fail — the source performs no duplicate
check (see the counterexample). -/
theorem c6_register_appends :
    (∀ (r : Registry) (name : String),
        Registry.register r name
          = .ok ({ members := r.members ++ [name],
                   byName := ainsert r.byName name r.members.length },
                 r.members.length))
    ∧ (∀ (r : Registry) (name : String) (r' : Registry) (idx : Nat),
        Registry.register r name = .ok (r', idx) →
        idx = r.members.length ∧ alookup r'.byName name = some idx)
    ∧ (∀ names : List String,
        (Registry.empty.registerAll names).1.members = names
        ∧ (Registry.empty.registerAll names).2 = List.range names.length) := by
  refine ⟨fun r name => rfl, ?_, ?_⟩
  · intro r name r' idx h
    simp only [Registry.register, Except.ok.injEq, Prod.mk.injEq] at h
    obtain ⟨h1, h2⟩ := h
    subst h2
    refine ⟨rfl, ?_⟩
    rw [← h1]
    exact alookup_ainsert_self r.byName name r.members.length
  · intro names
    have := registerAll_spec names Registry.empty
    simpa [Registry.empty] using this

/-- C6 counterexample: registering `"A"` into a registry that already
holds `"A"` succeeds, appending a duplicate member — it does not fail as
the claim states. -/
theorem c6_counterexample :
    (Registry.register { members := ["A"], byName := [("A", 0)] } "A").isOk = true
    ∧ Registry.register { members := ["A"], byName := [("A", 0)] } "A"
        = .ok ({ members := ["A", "A"], byName := [("A", 1)] }, 1) :=
  ⟨rfl, rfl⟩

/-- C6 witness: the registration hypothesis discharged on the empty
registry. -/
theorem c6_witness :
    0 = Registry.empty.members.length
    ∧ alookup (Registry.mk ["A"] [("A", 0)]).byName "A" = some 0 :=
  c6_register_appends.2.1 Registry.empty "A" (Registry.mk ["A"] [("A", 0)]) 0 rfl

/-- C7: the coercion round-trip law `to_domain (from_domain x) = x` for
every field kind with a coercion pair, on valid domain values. Unicode
and integer fields are identities; date fields round-trip every date
and collapse raw `0` and absent/`None` to the empty domain value;
datetime fields round-trip every non-epoch datetime and collapse the
epoch timestamp `0` and absence to empty; choice-as-text fields
round-trip every member whose name binding is intact — in particular
every member of a registry with pairwise-distinct names, the registry
invariant (a duplicate registration collapses two members onto one raw
name, the claim's collapse escape); choice-as-integer fields round-trip
every member; a foreign-key field serializes a record to its
`{table, key}` payload, and resolving that payload looks the referent
up by its own key — against an in-sync store (no cache) it returns a
record whose attribute dict equals the referent's, which is Python
`==` on these dict-backed records. -/
theorem c7_field_roundtrip :
    (∀ s : String, UnicodeField.to_python (UnicodeField.from_python s) = s)
    ∧ (∀ i : Int, IntegerField.to_python (IntegerField.from_python i) = i)
    ∧ (∀ d : Option PyDate,
        DateField.to_python (some (DateField.from_python d)) = .ok d)
    ∧ DateField.to_python (some 0) = .ok none
    ∧ DateField.to_python none = .ok none
    ∧ (∀ t : Option Int, (∀ v, t = some v → v ≠ 0) →
        DateTimeField.to_python (some (DateTimeField.from_python t)) = t)
    ∧ DateTimeField.to_python (some 0) = none
    ∧ DateTimeField.to_python none = none
    ∧ (∀ (reg : Registry) (x : Nat) (nm : String),
        reg.members.get? x = some nm →
        alookup reg.byName nm = some x →
        ChoiceField.from_python reg x = .ok nm
        ∧ ChoiceField.to_python reg nm = .ok x)
    ∧ (∀ (names : List String) (i : Nat) (nm : String),
        names.Nodup → names.get? i = some nm →
        ChoiceField.from_python (Registry.empty.registerAll names).1 i = .ok nm
        ∧ ChoiceField.to_python (Registry.empty.registerAll names).1 nm = .ok i)
    ∧ (∀ (reg : Registry) (x : Nat), x < reg.members.length →
        EnumField.from_python reg x = .ok x
        ∧ EnumField.to_python reg x = .ok x)
    ∧ (∀ (tbl : TableS) (store : Store) (x : Rec) (tname : String),
        get_record store (x.hash_key, x.range_key) = .ok x.attrs →
        (x.range_key = none → tbl.range_key_name = none →
          ForeignKeyField.to_python tbl store none
              (ForeignKeyField.from_python x tname)
            = .item (Rec.mk x.hash_key none x.attrs x.attrs false) none)
        ∧ (∀ rv, x.range_key = some rv →
          ForeignKeyField.to_python tbl store none
              (ForeignKeyField.from_python x tname)
            = .item (Rec.mk x.hash_key (some rv) x.attrs x.attrs false) none)) := by
  refine ⟨fun s => rfl, fun i => rfl, ?_, by norm_num [DateField.to_python],
    rfl, ?_, by norm_num [DateTimeField.to_python], rfl, ?_, ?_, ?_, ?_⟩
  · intro d
    cases d with
    | none => norm_num [DateField.to_python, DateField.from_python]
    | some dd =>
        obtain ⟨v, hv⟩ := dd
        simp [DateField.from_python, DateField.to_python, hv]
  · intro t ht
    cases t with
    | none => norm_num [DateTimeField.to_python, DateTimeField.from_python]
    | some v =>
        have hv : v ≠ 0 := ht v rfl
        simp [DateTimeField.from_python, DateTimeField.to_python, hv]
  · intro reg x nm h1 h2
    rw [List.get?_eq_getElem?] at h1
    exact ⟨by simp [ChoiceField.from_python, h1],
           by simp [ChoiceField.to_python, h2]⟩
  · intro names i nm hnd hget
    constructor
    · have hm := (registerAll_spec names Registry.empty).1
      have hget' := hget
      rw [List.get?_eq_getElem?] at hget'
      simp only [ChoiceField.from_python]
      rw [hm]
      simp [Registry.empty, hget']
    · have hb := registerAll_byName_nodup names Registry.empty hnd i nm hget
      simp only [ChoiceField.to_python]
      rw [hb]
      simp [Registry.empty]
  · intro reg x hx
    simp [EnumField.from_python, EnumField.to_python, hx]
  · intro tbl store x tname hm
    constructor
    · intro hr hrk
      rw [hr] at hm
      simp only [ForeignKeyField.to_python, ForeignKeyField.from_python, hr]
      exact getElem_hit_nocache_hash tbl store x.hash_key x.attrs hrk hm
    · intro rv hr
      rw [hr] at hm
      simp only [ForeignKeyField.to_python, ForeignKeyField.from_python, hr]
      exact getElem_hit_nocache_pair tbl store x.hash_key rv x.attrs hm

/-- C7 witness: the round trips with hypotheses, applied at a concrete
datetime, a concrete three-member registry, and a concrete in-sync
store. -/
theorem c7_witness :
    DateTimeField.to_python (some (DateTimeField.from_python (some 5)))
      = some 5
    ∧ ChoiceField.from_python
        (Registry.empty.registerAll ["Foo", "Bar", "Baz"]).1 1 = .ok "Bar"
    ∧ ChoiceField.to_python
        (Registry.empty.registerAll ["Foo", "Bar", "Baz"]).1 "Bar" = .ok 1
    ∧ EnumField.to_python
        (Registry.empty.registerAll ["Foo", "Bar", "Baz"]).1 2 = .ok 2
    ∧ ForeignKeyField.to_python tblH [(("a", none), [("h", DVal.s "a")])] none
        (ForeignKeyField.from_python
          (Rec.mk "a" none [("h", DVal.s "a")] [("h", DVal.s "a")] false) "t")
      = .item (Rec.mk "a" none [("h", DVal.s "a")] [("h", DVal.s "a")] false)
          none := by
  obtain ⟨-, -, -, -, -, h5, -, -, -, h8, h9, h10⟩ := c7_field_roundtrip
  have hc := h8 ["Foo", "Bar", "Baz"] 1 "Bar" (by decide) rfl
  have he := h9 (Registry.empty.registerAll ["Foo", "Bar", "Baz"]).1 2 (by decide)
  have hf := h10 tblH [(("a", none), [("h", DVal.s "a")])]
    (Rec.mk "a" none [("h", DVal.s "a")] [("h", DVal.s "a")] false) "t" rfl
  exact ⟨h5 (some 5) (by intro v hv; cases hv; decide), hc.1, hc.2, he.2,
    hf.1 rfl rfl⟩

/-- C8: setting or deleting the field named after the record's hash-key
or range-key attribute fails with the immutable-key error regardless of
the readonly flag or the converter; a readonly field (that is not a key
attribute) fails with the read-only error; in every such case the result
is independent of the conversion function, which is never consulted. -/
theorem c8_policy_check_order :
    (∀ (f : FieldD) (tbl : TableS) (conv : DVal → Except Unit DVal)
        (obj : Rec) (value : Option DVal),
        f.name = tbl.hash_key_name ∨ tbl.range_key_name = some f.name →
        FieldD.set f tbl conv obj value = .error .immutableKey)
    ∧ (∀ (f : FieldD) (tbl : TableS) (conv : DVal → Except Unit DVal)
        (obj : Rec) (value : Option DVal),
        f.name ≠ tbl.hash_key_name → tbl.range_key_name ≠ some f.name →
        f.readonly = true →
        FieldD.set f tbl conv obj value = .error .readOnly)
    ∧ (∀ (f : FieldD) (tbl : TableS) (obj : Rec),
        f.name = tbl.hash_key_name ∨ tbl.range_key_name = some f.name →
        FieldD.del f tbl obj = .error .immutableKey)
    ∧ (∀ (f : FieldD) (tbl : TableS) (obj : Rec),
        f.name ≠ tbl.hash_key_name → tbl.range_key_name ≠ some f.name →
        f.readonly = true →
        FieldD.del f tbl obj = .error .readOnly) := by
  refine ⟨?_, ?_, ?_, ?_⟩
  · intro f tbl conv obj value h
    rcases h with h | h
    · simp [FieldD.set, h]
    · by_cases h1 : f.name = tbl.hash_key_name
      · simp [FieldD.set, h1]
      · simp [FieldD.set, h1, h]
  · intro f tbl conv obj value h1 h2 h3
    simp [FieldD.set, h1, h2, h3]
  · intro f tbl obj h
    rcases h with h | h
    · simp [FieldD.del, h]
    · by_cases h1 : f.name = tbl.hash_key_name
      · simp [FieldD.del, h1]
      · simp [FieldD.del, h1, h]
  · intro f tbl obj h1 h2 h3
    simp [FieldD.del, h1, h2, h3]

/-- C8 witness: setting the hash-key field fails on a concrete record. -/
theorem c8_witness :
    FieldD.set { name := "h", readonly := false } tbl0 (fun v => .ok v)
      (Rec.mk "k" none [] [] true) none = .error .immutableKey :=
  c8_policy_check_order.1 _ _ _ _ _ (Or.inl rfl)

/-- C10: a field set or delete changes at most the attribute named by
the field — every other attribute of the raw mapping keeps its value and
presence — and leaves the `_original` snapshot untouched. -/
theorem c10_set_del_frame :
    (∀ (f : FieldD) (tbl : TableS) (conv : DVal → Except Unit DVal)
        (obj : Rec) (value : Option DVal) (obj' : Rec),
        FieldD.set f tbl conv obj value = .ok obj' →
        obj'.original = obj.original
        ∧ ∀ k, k ≠ f.name → alookup obj'.attrs k = alookup obj.attrs k)
    ∧ (∀ (f : FieldD) (tbl : TableS) (obj : Rec) (obj' : Rec),
        FieldD.del f tbl obj = .ok obj' →
        obj'.original = obj.original
        ∧ ∀ k, k ≠ f.name → alookup obj'.attrs k = alookup obj.attrs k) := by
  constructor
  · intro f tbl conv obj value obj' h
    simp only [FieldD.set] at h
    split at h
    · simp at h
    split at h
    · simp at h
    split at h
    · simp at h
    split at h
    · split at h
      · simp only [Except.ok.injEq] at h
        subst h
        exact ⟨rfl, fun k hk => alookup_aerase_ne obj.attrs f.name k (Ne.symm hk)⟩
      · simp only [Except.ok.injEq] at h
        subst h
        exact ⟨rfl, fun k hk => rfl⟩
    · split at h
      · simp at h
      · simp only [Except.ok.injEq] at h
        subst h
        exact ⟨rfl, fun k hk => alookup_ainsert_ne obj.attrs f.name k _ (Ne.symm hk)⟩
  · intro f tbl obj obj' h
    simp only [FieldD.del] at h
    split at h
    · simp at h
    split at h
    · simp at h
    split at h
    · simp at h
    split at h
    · simp only [Except.ok.injEq] at h
      subst h
      exact ⟨rfl, fun k hk => alookup_aerase_ne obj.attrs f.name k (Ne.symm hk)⟩
    · simp at h

/-- C10 witness: a successful set of field `x` on a concrete record. -/
theorem c10_witness :
    (Rec.mk "k" none [("h", DVal.s "k"), ("x", DVal.n 2)] [("h", DVal.s "k")] true).original
      = (Rec.mk "k" none [("h", DVal.s "k")] [("h", DVal.s "k")] true).original
    ∧ alookup (Rec.mk "k" none [("h", DVal.s "k"), ("x", DVal.n 2)]
        [("h", DVal.s "k")] true).attrs "h"
      = alookup (Rec.mk "k" none [("h", DVal.s "k")] [("h", DVal.s "k")] true).attrs "h" := by
  have H := c10_set_del_frame.1 { name := "x", readonly := false } tbl0
    (fun v => .ok v) (Rec.mk "k" none [("h", DVal.s "k")] [("h", DVal.s "k")] true)
    (some (DVal.n 2))
    (Rec.mk "k" none [("h", DVal.s "k"), ("x", DVal.n 2)] [("h", DVal.s "k")] true)
    rfl
  exact ⟨H.1, H.2 "h" (by decide)⟩

/-- On a cache miss and a store miss, a hash-only lookup on a hash-only
table recovers with a fresh draft. -/
theorem getElem_miss_hash (tbl : TableS) (store : Store)
    (cache : Option CacheState) (h : String)
    (hrk : tbl.range_key_name = none)
    (hc : Table.getCache tbl cache h none = none)
    (hm : get_record store (h, none) = .error ()) :
    Table.getElem tbl store cache (.inl h)
      = .item (Table.create tbl h none) cache := by
  simp [Table.getElem, hc, hrk, Table.get_item, hm, Table.create]

/-- On a cache miss and a store miss, a `(hash, range)` lookup recovers
with a fresh draft. -/
theorem getElem_miss_pair (tbl : TableS) (store : Store)
    (cache : Option CacheState) (h rv : String)
    (hc : Table.getCache tbl cache h (some rv) = none)
    (hm : get_record store (h, some rv) = .error ()) :
    Table.getElem tbl store cache (.inr (h, rv))
      = .item (Table.create tbl h (some rv)) cache := by
  simp [Table.getElem, hc, Table.get_item, hm, Table.create]

/-- C1: when the cache misses and the store raises NotFound, a
single-key lookup (a hash key on a hash-only table, or a hash and range
key) returns the fresh draft built by `create`, whose `is_new` is true —
it does not raise. -/
theorem c1_lookup_miss_returns_draft (tbl : TableS) (store : Store)
    (cache : Option CacheState) (h rv : String)
    (hc1 : Table.getCache tbl cache h none = none)
    (hm1 : get_record store (h, none) = .error ())
    (hc2 : Table.getCache tbl cache h (some rv) = none)
    (hm2 : get_record store (h, some rv) = .error ()) :
    (tbl.range_key_name = none →
      Table.getElem tbl store cache (.inl h)
        = .item (Table.create tbl h none) cache
      ∧ (Table.create tbl h none).is_new = true)
    ∧ (Table.getElem tbl store cache (.inr (h, rv))
        = .item (Table.create tbl h (some rv)) cache
      ∧ (Table.create tbl h (some rv)).is_new = true) :=
  ⟨fun hrk => ⟨getElem_miss_hash tbl store cache h hrk hc1 hm1, rfl⟩,
   getElem_miss_pair tbl store cache h rv hc2 hm2, rfl⟩

/-- C1 witness: empty store, no cache. -/
theorem c1_witness :
    Table.getElem tblH [] none (.inl "a") = .item (Table.create tblH "a" none) none
    ∧ (Table.create tblH "a" none).is_new = true :=
  (c1_lookup_miss_returns_draft tblH [] none "a" "b" rfl rfl rfl rfl).1 rfl

/-- C9: the `is_new` lifecycle. A successful `put` or `save` sets
`is_new` to false (a store failure leaves the record untouched); a
`delete` sets it back to true and cannot fail the record update; a
fetch-miss hands back `create`'s draft with `is_new` true; a store
fetch-hit and a cache hit produce records with `is_new` false. -/
theorem c9_is_new_lifecycle :
    (∀ (st : OpState) (exp : Option (List (PyKey × PyVal))) (st' : OpState),
        Item.put st exp = .ok st' → st'.item.is_new = false)
    ∧ (∀ (st : OpState) (exp : Option (List (PyKey × PyVal)))
        (e : DuoErr) (st' : OpState),
        Item.put st exp = .err e st' → st'.item = st.item)
    ∧ (∀ (st : OpState) (exp : Option (List (PyKey × PyVal))) (st' : OpState),
        Item.save st exp = .ok st' → st'.item.is_new = false)
    ∧ (∀ (st : OpState) (exp : Option (List (PyKey × PyVal)))
        (e : DuoErr) (st' : OpState),
        Item.save st exp = .err e st' → st'.item = st.item)
    ∧ (∀ (st st' : OpState), Item.delete st = .ok st' → st'.item.is_new = true)
    ∧ (∀ (st : OpState) (e : DuoErr) (st' : OpState),
        Item.delete st ≠ .err e st')
    ∧ (∀ (tbl : TableS) (h : String) (r : Option String),
        (Table.create tbl h r).is_new = true)
    ∧ (∀ (tbl : TableS) (store : Store) (cache : Option CacheState)
        (h : String) (r : Option String) (it : Rec) (c : Option CacheState),
        Table.get_item tbl store cache h r = .ok it c → it.is_new = false)
    ∧ (∀ (tbl : TableS) (cache : Option CacheState) (h : String)
        (r : Option String) (it : Rec),
        Table.getCache tbl cache h r = some it → it.is_new = false)
    ∧ (∀ (tbl : TableS) (store : Store) (cache : Option CacheState)
        (h : String),
        tbl.range_key_name = none →
        Table.getCache tbl cache h none = none →
        get_record store (h, none) = .error () →
        ∃ it, Table.getElem tbl store cache (.inl h) = .item it cache
          ∧ it.is_new = true) := by
  refine ⟨?_, ?_, ?_, ?_, ?_, ?_, fun tbl h r => rfl, ?_, ?_, ?_⟩
  · intro st exp st' h
    simp only [Item.put] at h
    split at h
    · simp at h
    · split at h <;>
      · simp only [OpResult.ok.injEq] at h
        subst h
        rfl
  · intro st exp e st' h
    simp only [Item.put] at h
    split at h
    · simp only [OpResult.err.injEq] at h
      rw [h.2]
    · split at h <;> simp at h
  · intro st exp st' h
    simp only [Item.save] at h
    split at h
    · simp at h
    · split at h <;>
      · simp only [OpResult.ok.injEq] at h
        subst h
        rfl
  · intro st exp e st' h
    simp only [Item.save] at h
    split at h
    · simp only [OpResult.err.injEq] at h
      rw [h.2]
    · split at h <;> simp at h
  · intro st st' h
    simp only [Item.delete] at h
    split at h <;>
    · simp only [OpResult.ok.injEq] at h
      subst h
      rfl
  · intro st e st' h
    simp only [Item.delete] at h
    split at h <;> simp at h
  · intro tbl store cache h r it c hfetch
    simp only [Table.get_item] at hfetch
    split at hfetch
    · simp at hfetch
    · split at hfetch
      · simp at hfetch
      · simp only [FetchResult.ok.injEq] at hfetch
        rw [← hfetch.1]
  · intro tbl cache h r it hcache
    simp only [Table.getCache] at hcache
    split at hcache
    · simp at hcache
    · split at hcache
      · simp at hcache
      · simp only [Option.some.injEq] at hcache
        rw [← hcache]
  · intro tbl store cache h hrk hc hm
    exact ⟨Table.create tbl h none, getElem_miss_hash tbl store cache h hrk hc hm, rfl⟩

/-- C9 witness: a delete on a concrete state flips `is_new` to true. -/
theorem c9_witness :
    (OpState.mk tblH [] none (Rec.mk "a" none [] [] true) false).item.is_new = true :=
  c9_is_new_lifecycle.2.2.2.2.1
    (OpState.mk tblH [] none (Rec.mk "a" none [] [] false) false)
    (OpState.mk tblH [] none (Rec.mk "a" none [] [] true) false) rfl

/-- C3 (amended): `put`, `save` and `delete` catch any exception from
the cache layer, downgrade it to a warning and still return their store
result — the only error they can raise is the store's precondition
failure, and `delete` cannot raise at all. The cache populate performed
during a single-record store fetch (`Table.get_item`, reached from
lookup), however, is not wrapped in a `try/except`: a cache exception
there propagates to the caller (see the counterexample). -/
theorem c3_cache_failure_nonfatal :
    (∀ (st : OpState) (exp : Option (List (PyKey × PyVal)))
        (e : DuoErr) (st' : OpState),
        Item.put st exp = .err e st' → e = .preconditionFailed)
    ∧ (∀ (st : OpState) (exp : Option (List (PyKey × PyVal))) (s' : Store),
        put_record st.store (st.item.hash_key, st.item.range_key)
            st.item.attrs exp = .ok s' →
        ∃ st', Item.put st exp = .ok st' ∧ st'.store = s')
    ∧ (∀ (st : OpState) (exp : Option (List (PyKey × PyVal)))
        (e : DuoErr) (st' : OpState),
        Item.save st exp = .err e st' → e = .preconditionFailed)
    ∧ (∀ (st : OpState) (exp : Option (List (PyKey × PyVal))) (s' : Store),
        put_record st.store (st.item.hash_key, st.item.range_key)
            st.item.attrs exp = .ok s' →
        ∃ st', Item.save st exp = .ok st' ∧ st'.store = s')
    ∧ (∀ st : OpState, ∃ st', Item.delete st = .ok st'
        ∧ st'.store = delete_record st.store
            (st.item.hash_key, st.item.range_key)) := by
  refine ⟨?_, ?_, ?_, ?_, ?_⟩
  · intro st exp e st' h
    simp only [Item.put] at h
    split at h
    · simp only [OpResult.err.injEq] at h
      rw [h.1]
    · split at h <;> simp at h
  · intro st exp s' hput
    cases hsc : itemSetCache st.tbl st.cache
        { st.item with is_new := false } with
    | error u =>
        refine ⟨{ st with
                  store := s',
                  item := { st.item with is_new := false },
                  warned := true }, ?_, rfl⟩
        simp [Item.put, hput, hsc]
    | ok c' =>
        refine ⟨{ st with
                  store := s',
                  cache := c',
                  item := { st.item with is_new := false } }, ?_, rfl⟩
        simp [Item.put, hput, hsc]
  · intro st exp e st' h
    simp only [Item.save] at h
    split at h
    · simp only [OpResult.err.injEq] at h
      rw [h.1]
    · split at h <;> simp at h
  · intro st exp s' hput
    cases hsc : itemSetCache st.tbl st.cache
        { st.item with is_new := false } with
    | error u =>
        refine ⟨{ st with
                  store := s',
                  item := { st.item with is_new := false },
                  warned := true }, ?_, rfl⟩
        simp [Item.save, hput, hsc]
    | ok c' =>
        refine ⟨{ st with
                  store := s',
                  cache := c',
                  item := { st.item with is_new := false } }, ?_, rfl⟩
        simp [Item.save, hput, hsc]
  · intro st
    cases hdc : itemDelCache st.tbl st.cache
        { st.item with is_new := true } with
    | error u =>
        refine ⟨{ st with
                  store := delete_record st.store
                    (st.item.hash_key, st.item.range_key),
                  item := { st.item with is_new := true },
                  warned := true }, ?_, rfl⟩
        simp [Item.delete, hdc]
    | ok c' =>
        refine ⟨{ st with
                  store := delete_record st.store
                    (st.item.hash_key, st.item.range_key),
                  cache := c',
                  item := { st.item with is_new := true } }, ?_, rfl⟩
        simp [Item.delete, hdc]

/-- C3 counterexample: a lookup that hits the store but whose cache
`set` raises propagates the cache exception out of `__getitem__` —
the claim's "never fails because of the cache" does not hold for the
lookup populate. -/
theorem c3_counterexample :
    Table.getElem tbl0 [(("a", some "b"), [("h", DVal.s "a")])]
        (some cacheFail) (.inr ("a", "b"))
      = .err .cacheError (some cacheFail) := rfl

/-- C3 witness: an unconditional put on a concrete state returns
normally. -/
theorem c3_witness :
    (Item.put (OpState.mk tblH [] none
        (Rec.mk "a" none [("h", DVal.s "a")] [] true) false) none).isOk = true := by
  obtain ⟨st', h1, h2⟩ := c3_cache_failure_nonfatal.2.1
    (OpState.mk tblH [] none (Rec.mk "a" none [("h", DVal.s "a")] [] true) false)
    none [(("a", none), [("h", DVal.s "a")])] rfl
  rw [h1]
  rfl

/-- C2 (code bug): `get_expected` iterates `self.items()` — `(name,
value)` pairs — as dict keys, so the live attributes' *names* are never
mapped to `False`; the result keys the placeholders by tuples. On
`rec2` (live `{h: "k", a: 1}`, snapshot `{h: "k"}`) the name `"a"` is
absent from the result, where the claim requires `"a" ↦ False`. -/
theorem c2_get_expected_tuple_keys :
    Rec.get_expected rec2
      = [(PyKey.pair "h" (DVal.s "k"), PyVal.bool false),
         (PyKey.pair "a" (DVal.n 1), PyVal.bool false),
         (PyKey.str "h", PyVal.dval (DVal.s "k"))]
    ∧ alookup (Rec.get_expected rec2) (PyKey.str "a") = none := ⟨rfl, rfl⟩

/-- C4 (code bug): `put_conditionally`/`save_conditionally` do delegate
with `expected_value := get_expected()` (first two conjuncts), but
because `get_expected` keys its placeholders by `(name, value)` tuples
(see C2) the precondition does not assert the absence of
locally-new attributes: on `rec2` against `store4` — whose state at the
key has diverged from `rec2`'s snapshot — the conditional put succeeds
instead of failing with PreconditionFailed. -/
theorem c4_conditional_put_misses_divergence :
    (∀ st : OpState,
        Item.put_conditionally st
          = Item.put st (some (Rec.get_expected st.item)))
    ∧ (∀ st : OpState,
        Item.save_conditionally st
          = Item.save st (some (Rec.get_expected st.item)))
    ∧ (Item.put_conditionally (OpState.mk tblH store4 none rec2 false)).isOk
        = true
    ∧ (alookup store4 ("k", none)).getD [] ≠ rec2.original :=
  ⟨fun st => rfl, fun st => rfl, rfl, by decide⟩

end Duo
